import Mathlib

/-
Shallow embedding of the VisionCare-App backend (src/backend/ai_service.py,
src/backend/app.py) and verification of the behavioural claims about it.

Conventions of the embedding:
- Python floats are modelled by ℚ; machine strings by String; byte streams,
  tensors and the loaded Keras model are type parameters (B, T, M), with the
  operating-system / TensorFlow behaviour (model load outcome, decode success,
  predict output) passed in as explicit parameters.
- The process-wide global `model` variable of ai_service.py is modelled by an
  explicit `ModelState` that is threaded through `load_model` / `run_inference`.
- Fallible Python calls are modelled with Option / Except; a raised-and-caught
  exception corresponds to the error branch of the match.
-/

namespace VisionCare

/-! ### ai_service.py -/

/-- State of the module-global `model` variable in ai_service.py:
`uninit` is Python `None` (never attempted), `failed` is the sentinel `False`
stored after a failed load (line 23), `loaded m` is a successfully loaded model. -/
inductive ModelState (M : Type) where
  | uninit : ModelState M
  | failed : ModelState M
  | loaded (m : M) : ModelState M
deriving DecidableEq

/-- ai_service.py lines 12-24, `load_model`.  The body runs only when the
global is still `None`; `loadAttempt` is the outcome of
`tf.keras.models.load_model(MODEL_PATH)` (`none` = the call raised).
A failed attempt stores the sentinel `False` (here `.failed`) "to indicate a
failed load but prevent repeated attempts"; any non-`None` state is returned
unchanged without touching TensorFlow. -/
def load_model {M : Type} (loadAttempt : Option M) : ModelState M → ModelState M
  | .uninit =>
    match loadAttempt with
    | some m => ModelState.loaded m
    | none => ModelState.failed
  | s => s

/-- The dict returned by `run_inference` (ai_service.py lines 62, 66, 83-87, 91). -/
structure InferResult where
  prediction : String
  probability : ℚ
  status : String
deriving DecidableEq

/-- ai_service.py line 79: the fixed ordered class-label list. -/
def class_labels : List String :=
  ["Stage 0 (Normal)", "Stage 1", "Stage 2", "Stage 3 (High-Risk)"]

/-- `float(np.max(predictions))` (ai_service.py line 75): maximum entry of the
output vector (the `(1, n)` prediction array holds a single row). -/
def maxVal : List ℚ → ℚ
  | [] => 0
  | x :: xs => xs.foldl max x

/-- `np.argmax(predictions, axis=1)[0]` (ai_service.py line 74): index of the
first occurrence of the maximum entry. -/
def argmaxIdx (v : List ℚ) : Nat := v.indexOf (maxVal v)

/-- Python `round` to an integer: round half to even (banker's rounding). -/
def round_half_even (q : ℚ) : ℤ :=
  if q - ⌊q⌋ < 1 / 2 then ⌊q⌋
  else if 1 / 2 < q - ⌊q⌋ then ⌊q⌋ + 1
  else if ⌊q⌋ % 2 = 0 then ⌊q⌋ else ⌊q⌋ + 1

/-- `round(probability, 4)` (ai_service.py line 85): round to 4 decimal digits. -/
def round4 (q : ℚ) : ℚ := (round_half_even (q * 10000) : ℚ) / 10000

/-- Body of `run_inference` after the model lookup (ai_service.py lines 61-91),
evaluated against the already-updated global state `s1`:
- `if not model` (line 61): `None` and the `False` sentinel both fail the test,
  giving the "Model Error" result;
- `preprocess_image` returning `None` (lines 64-66) gives "Preprocessing Error";
- the `try` block (lines 68-91): a raising `model.predict` call, `np.argmax` on
  an empty vector, or an out-of-range `class_labels[...]` lookup are all caught
  by `except Exception`, giving "Inference Exception";
- otherwise the argmax label and the rounded maximum probability are returned
  with status "processed". -/
def inferBody {M T B : Type} (predict : M → T → Except String (List ℚ))
    (preprocess : B → Option T) (s1 : ModelState M) (b : B) : InferResult :=
  match s1 with
  | .loaded m =>
    match preprocess b with
    | none => ⟨"Preprocessing Error", 0, "failed"⟩
    | some t =>
      match predict m t with
      | .error _ => ⟨"Inference Exception", 0, "failed"⟩
      | .ok [] => ⟨"Inference Exception", 0, "failed"⟩
      | .ok (x :: xs) =>
        if h : argmaxIdx (x :: xs) < class_labels.length then
          ⟨class_labels.get ⟨argmaxIdx (x :: xs), h⟩,
           round4 (maxVal (x :: xs)), "processed"⟩
        else ⟨"Inference Exception", 0, "failed"⟩
  | _ => ⟨"Model Error", 0, "failed"⟩

/-- ai_service.py lines 56-91, `run_inference`.  Returns the result dict
together with the global model state after the call (the only mutation is the
`load_model()` call on line 60). -/
def run_inference {M T B : Type} (loadAttempt : Option M)
    (predict : M → T → Except String (List ℚ)) (preprocess : B → Option T)
    (s : ModelState M) (b : B) : InferResult × ModelState M :=
  let s1 := load_model loadAttempt s
  (inferBody predict preprocess s1 b, s1)

/-! ### app.py — data model -/

/-- A document of the `patients` collection, as built by `add_patient`
(app.py lines 98-109). -/
structure Patient where
  neonate_id : String
  name : String
  birth_date : String
  gestational_age : Option String
  weight : Option ℚ
  parent_name : String
  parent_phone : Option String
  parent_email : Option String
  status : String
  created_at : String
deriving DecidableEq

/-- The nested `ai_result` sub-document of an image record (app.py
lines 221-225 and 235-237). -/
structure AiResult where
  status : String
  prediction : String
  probability : ℚ
deriving DecidableEq

/-- A document of the `images` collection (app.py lines 213-226).  `id` models
the MongoDB `_id` assigned at insert time; file size is an
environment-supplied display string (it comes from `os.path.getsize` plus
float formatting, both outside the program's own logic). -/
structure StoredImage where
  id : Nat
  patientId : String
  patientName : String
  filename : String
  filepath : String
  upload_time : String
  file_size : String
  status : String
  ai_result : AiResult
deriving DecidableEq

/-- A document of the `appointments` collection (app.py lines 146-153). -/
structure Appointment where
  patientId : String
  patientName : String
  datetime : String
  type : String
  status : String
  created_at : String
deriving DecidableEq

/-! ### app.py — request shapes.  A field is `none` when the key is absent
from the JSON body / form data. -/

/-- Body of `POST /api/patients` (app.py lines 88-106). -/
structure PatientReq where
  name : Option String
  neonate_id : Option String
  birth_date : Option String
  parent_name : Option String
  gestational_age : Option String
  weight : Option String
  parent_phone : Option String
  parent_email : Option String
deriving DecidableEq

/-- Body of `POST /api/appointments` (app.py lines 131-150). -/
structure ApptReq where
  patientId : Option String
  datetime : Option String
  type : Option String
deriving DecidableEq

/-- `POST /api/images/upload` (app.py lines 187-196): the file part carries
its client-supplied filename; `file = none` models a missing file part,
`patientId = none` a missing form field. -/
structure UploadReq where
  file : Option String
  patientId : Option String
deriving DecidableEq

/-! ### app.py — helpers -/

/-- Python `str.upper()` as used on patient ids (ASCII case mapping),
character-by-character over the string's characters. -/
def pyUpper (s : String) : String := ⟨s.data.map Char.toUpper⟩

/-- Truthiness test `field in data and data[field]` used for required string
fields (app.py lines 90, 133): present and non-empty. -/
def reqFieldOk : Option String → Bool
  | none => false
  | some s => s != ""

/-- app.py lines 27-36, `get_patient_details`: `find_one` on the uppercased
id.  The Python helper projects the hit to a small dict whose `patientName`
and `patientId` fields are the stored `name` and `neonate_id`; here the whole
stored document is returned and callers read those fields. -/
def get_patient_details (neonate_id : String) (patients : List Patient) :
    Option Patient :=
  patients.find? (fun p => p.neonate_id == pyUpper neonate_id)

/-- CPython `str.rfind` for a single character on the char list of a string:
index of the last occurrence, `-1` when absent. -/
def rfindChar (c : Char) : List Char → Int
  | [] => -1
  | x :: xs =>
    let r := rfindChar c xs
    if r ≥ 0 then r + 1 else if x == c then 0 else -1

/-- CPython `os.path.splitext` (posixpath): split at the last `.` of the last
path component, unless every character of the component before it is a dot
(so dotfiles such as `.bashrc` keep no extension). -/
def splitext (p : String) : String × String :=
  let l := p.data
  let sepIndex := rfindChar '/' l
  let dotIndex := rfindChar '.' l
  if sepIndex < dotIndex then
    let start := (sepIndex + 1).toNat
    let stop := dotIndex.toNat
    if ((l.drop start).take (stop - start)).any (fun ch => ch != '.') then
      (⟨l.take stop⟩, ⟨l.drop stop⟩)
    else (p, "")
  else (p, "")

/-- `os.path.join` on posix for the two-argument uses in app.py: the second
component wins when absolute. -/
def joinPath (a b : String) : String :=
  if b.data.head? == some '/' then b else a ++ "/" ++ b

/-- app.py line 21. -/
def UPLOAD_FOLDER : String := "uploads"

/-! ### app.py — receptionist endpoints -/

/-- The `weight` entry of the new patient document (app.py line 103):
`float(data.get('weight', 0)) if data.get('weight') else None`.  A truthy
string that fails `float()` raises `ValueError` (caught at line 110), which
is the outer `none`. -/
def weightField (parseFloat : String → Option ℚ) :
    Option String → Option (Option ℚ)
  | none => some none
  | some w => if w == "" then some none else (parseFloat w).map some

/-- app.py lines 85-117, `add_patient`.  `parseDate` models
`dateutil.parser.parse(...).isoformat()` (`none` = the parse raised, caught as
`ValueError` at line 110), `parseFloat` models `float(...)`, `now` the
`datetime.now().isoformat()` timestamp.  Returns the HTTP status code and the
patients collection after the call. -/
def add_patient (parseDate : String → Option String)
    (parseFloat : String → Option ℚ) (now : String) (req : PatientReq)
    (db : List Patient) : Nat × List Patient :=
  match req.name, req.neonate_id, req.birth_date, req.parent_name with
  | some nm, some nid, some bd, some pn =>
    if nm == "" || nid == "" || bd == "" || pn == "" then (400, db)
    else if db.any (fun p => p.neonate_id == pyUpper nid) then (409, db)
    else
      match parseDate bd, weightField parseFloat req.weight with
      | some iso, some wopt =>
        (201, db ++ [⟨pyUpper nid, nm, iso, req.gestational_age, wopt, pn,
                      req.parent_phone, req.parent_email, "Active", now⟩])
      | _, _ => (400, db)
  | _, _, _, _ => (400, db)

/-- app.py lines 119-126, `get_all_patients`: every stored patient, sorted by
`created_at` descending. -/
def get_all_patients (db : List Patient) : List Patient :=
  db.mergeSort (fun a b => decide (b.created_at ≤ a.created_at))

/-- app.py lines 128-159, `schedule_appointment`.  `parseDT` models
`dateutil.parser.parse(...).isoformat()` (`none` = the bare `except` at
line 143 fired).  Returns the HTTP status code and the appointments
collection after the call. -/
def schedule_appointment (parseDT : String → Option String) (now : String)
    (req : ApptReq) (patients : List Patient) (appts : List Appointment) :
    Nat × List Appointment :=
  match req.patientId, req.datetime, req.type with
  | some pid, some dt, some ty =>
    if pid == "" || dt == "" || ty == "" then (400, appts)
    else
      match get_patient_details pid patients with
      | none => (404, appts)
      | some pat =>
        match parseDT dt with
        | none => (400, appts)
        | some iso =>
          (201, appts ++ [⟨pat.neonate_id, pat.name, iso, ty, "Scheduled", now⟩])
  | _, _, _ => (400, appts)

/-! ### app.py — scanner endpoint -/

/-- Side effects of `upload_image`, in the order the Python code performs
them: `file.save(filepath)` (line 208), `images_collection.insert_one`
(line 228), `images_collection.update_one` (line 231). -/
inductive UploadEvent where
  | saveFile (filepath : String) : UploadEvent
  | insertImage (id : Nat) : UploadEvent
  | updateImage (id : Nat) : UploadEvent
deriving DecidableEq

/-- Result of one `POST /api/images/upload` call: HTTP status, the
`aiResult.status` field of the response body (absent on errors), the images
collection after the call, and the ordered side effects. -/
structure UploadOutcome where
  httpStatus : Nat
  respAiStatus : Option String
  images : List StoredImage
  events : List UploadEvent
deriving DecidableEq

/-- A fresh MongoDB `_id` for an insert: strictly larger than every id already
in the collection (ObjectIds never collide with existing documents). -/
def freshId (images : List StoredImage) : Nat :=
  images.foldl (fun a r => max a (r.id + 1)) 0

/-- app.py lines 184-247, `upload_image`.  `token` is `uuid.uuid4().hex`,
`now` the upload timestamp, `sizeStr` the formatted `file_size` string.
Validation order follows the source: missing file part → 400, missing
patientId → 400, empty filename → 400, unknown patient → 404.  On acceptance:
the file is saved under `patient_id + "_" + token + extension`, the record is
inserted with status `Uploaded` / ai_result `Processing`-`Unknown`-`0`, then
immediately updated (the mock at lines 230-239) to status `Processed` /
ai_result `Pending Review`-`Low-Risk ROP Stage 1`-`0.95`, and the response
reports `aiResult.status = "Processing"` (line 245). -/
def upload_image (token now sizeStr : String) (req : UploadReq)
    (patients : List Patient) (images : List StoredImage) : UploadOutcome :=
  match req.file with
  | none => ⟨400, none, images, []⟩
  | some fname =>
    match req.patientId with
    | none => ⟨400, none, images, []⟩
    | some pidRaw =>
      let patient_id := pyUpper pidRaw
      if fname == "" then ⟨400, none, images, []⟩
      else
        match get_patient_details patient_id patients with
        | none => ⟨404, none, images, []⟩
        | some pat =>
          let extension := (splitext fname).2
          let filename := patient_id ++ "_" ++ token ++ extension
          let filepath := joinPath UPLOAD_FOLDER filename
          let newId := freshId images
          let rec0 : StoredImage :=
            ⟨newId, patient_id, pat.name, filename, filepath, now, sizeStr,
             "Uploaded", ⟨"Processing", "Unknown", 0⟩⟩
          let inserted := images ++ [rec0]
          let updated := inserted.map (fun r =>
            if r.id = newId then
              { r with status := "Processed",
                       ai_result := ⟨"Pending Review", "Low-Risk ROP Stage 1",
                                     0.95⟩ }
            else r)
          ⟨201, some "Processing", updated,
           [.saveFile filepath, .insertImage newId, .updateImage newId]⟩

/-! ### app.py — doctor endpoint -/

/-- app.py line 276: the expanded set of high-risk prediction labels used by
the review queue query. -/
def highRiskReviewLabels : List String :=
  ["High-Risk ROP Stage 3", "Urgent Referral", "Severe ROP"]

/-- The MongoDB query of `get_images_for_review` (app.py lines 274-278):
`ai_result.status == "Pending Review"`, prediction among the high-risk
labels, and overall status not `Reviewed`. -/
def reviewQuery (r : StoredImage) : Bool :=
  r.ai_result.status == "Pending Review"
    && highRiskReviewLabels.contains r.ai_result.prediction
    && r.status != "Reviewed"

/-- Response of `GET /api/images/review`: either the real matching records or
the hard-coded placeholder list returned when no document matches (app.py
lines 280-292). -/
inductive ReviewResponse where
  | records (l : List StoredImage) : ReviewResponse
  | mockFallback : ReviewResponse
deriving DecidableEq

/-- app.py lines 269-298, `get_images_for_review`: if no document matches the
query, the constant mock list is returned; otherwise the matching records,
sorted by `upload_time` descending. -/
def get_images_for_review (images : List StoredImage) : ReviewResponse :=
  if images.countP (fun r => reviewQuery r) = 0 then .mockFallback
  else .records ((images.filter (fun r => reviewQuery r)).mergeSort
    (fun a b => decide (b.upload_time ≤ a.upload_time)))

/-! ### Helper lemmas -/

theorem foldl_max_le_self (xs : List ℚ) (a : ℚ) : a ≤ xs.foldl max a := by
  induction xs generalizing a with
  | nil => exact le_refl a
  | cons x xs ih => exact le_trans (le_max_left a x) (ih (max a x))

theorem foldl_max_mem (xs : List ℚ) (a : ℚ) :
    xs.foldl max a = a ∨ xs.foldl max a ∈ xs := by
  induction xs generalizing a with
  | nil => exact Or.inl rfl
  | cons x xs ih =>
    rw [List.foldl_cons]
    rcases ih (max a x) with h | h
    · rcases max_choice a x with hm | hm
      · exact Or.inl (by rw [h, hm])
      · exact Or.inr (by rw [h, hm]; exact List.mem_cons_self x xs)
    · exact Or.inr (List.mem_cons_of_mem x h)

theorem le_foldl_max (xs : List ℚ) (a : ℚ) : ∀ y ∈ xs, y ≤ xs.foldl max a := by
  induction xs generalizing a with
  | nil => intro y hy; cases hy
  | cons x xs ih =>
    intro y hy
    rcases List.mem_cons.mp hy with rfl | hy
    · exact le_trans (le_max_right a y) (foldl_max_le_self xs (max a y))
    · exact ih (max a x) y hy

theorem maxVal_mem (v : List ℚ) (h : v ≠ []) : maxVal v ∈ v := by
  obtain ⟨x, xs, rfl⟩ := List.exists_cons_of_ne_nil h
  show xs.foldl max x ∈ x :: xs
  rcases foldl_max_mem xs x with hm | hm
  · rw [hm]; exact List.mem_cons_self x xs
  · exact List.mem_cons_of_mem x hm

theorem le_maxVal (v : List ℚ) : ∀ y ∈ v, y ≤ maxVal v := by
  intro y hy
  match v, hy with
  | x :: xs, hy =>
    rcases List.mem_cons.mp hy with rfl | hy
    · exact foldl_max_le_self xs y
    · exact le_foldl_max xs x y hy

theorem argmaxIdx_lt_length (v : List ℚ) (h : v ≠ []) :
    argmaxIdx v < v.length :=
  List.indexOf_lt_length.mpr (maxVal_mem v h)

theorem getElem?_argmaxIdx (v : List ℚ) (h : v ≠ []) :
    v[argmaxIdx v]? = some (maxVal v) := by
  rw [List.getElem?_eq_getElem (argmaxIdx_lt_length v h)]
  exact congrArg some (List.getElem_indexOf (argmaxIdx_lt_length v h))

theorem getElem?_ne_of_lt_indexOf {α : Type} [DecidableEq α] (l : List α)
    (a : α) (j : Nat) (hj : j < l.indexOf a) : l[j]? ≠ some a := by
  induction l generalizing j with
  | nil => simp [List.indexOf_nil] at hj
  | cons x xs ih =>
    rw [List.indexOf_cons] at hj
    by_cases hx : x = a
    · simp [hx] at hj
    · have hx' : (x == a) = false := beq_eq_false_iff_ne.mpr hx
      rw [hx'] at hj
      cases j with
      | zero =>
        simp only [List.getElem?_cons_zero]
        intro hc
        exact hx (Option.some_injective _ hc)
      | succ j =>
        simp only [List.getElem?_cons_succ]
        exact ih j (by simpa using Nat.lt_of_succ_lt_succ hj)

theorem round_half_even_bounds (q : ℚ) (h0 : 0 ≤ q) (h1 : q ≤ 10000) :
    0 ≤ round_half_even q ∧ round_half_even q ≤ 10000 := by
  have hfl0 : (0 : ℤ) ≤ ⌊q⌋ := Int.floor_nonneg.mpr h0
  have hflq : (⌊q⌋ : ℚ) ≤ q := Int.floor_le q
  have hfl1 : ⌊q⌋ ≤ 10000 := by
    by_contra hc
    push_neg at hc
    have : (10000 : ℚ) < (⌊q⌋ : ℚ) := by exact_mod_cast hc
    linarith
  have hhalf : ((⌊q⌋ : ℚ) + 1 / 2 ≤ q) → ⌊q⌋ + 1 ≤ 10000 := by
    intro h
    by_contra hc
    push_neg at hc
    have h10 : (10000 : ℚ) ≤ (⌊q⌋ : ℚ) := by exact_mod_cast Int.lt_add_one_iff.mp hc
    linarith
  unfold round_half_even
  split_ifs with hfr1 hfr2 hpar
  · exact ⟨hfl0, hfl1⟩
  · refine ⟨by omega, hhalf (by linarith)⟩
  · exact ⟨hfl0, hfl1⟩
  · have heq : q - (⌊q⌋ : ℚ) = 1 / 2 := le_antisymm (not_lt.mp hfr2) (not_lt.mp hfr1)
    refine ⟨by omega, hhalf (by linarith)⟩

theorem round4_bounds (q : ℚ) (h0 : 0 ≤ q) (h1 : q ≤ 1) :
    0 ≤ round4 q ∧ round4 q ≤ 1 := by
  have hb := round_half_even_bounds (q * 10000) (by linarith) (by linarith)
  unfold round4
  constructor
  · exact div_nonneg (by exact_mod_cast hb.1) (by norm_num)
  · rw [div_le_one (by norm_num : (0 : ℚ) < 10000)]
    exact_mod_cast hb.2

theorem inferBody_processed_prediction_mem {M T B : Type}
    (predict : M → T → Except String (List ℚ)) (preprocess : B → Option T)
    (s1 : ModelState M) (b : B) :
    (inferBody predict preprocess s1 b).status = "processed" →
    (inferBody predict preprocess s1 b).prediction ∈ class_labels := by
  cases s1 with
  | uninit => simp [inferBody]
  | failed => simp [inferBody]
  | loaded m =>
    cases hp : preprocess b with
    | none => simp [inferBody, hp]
    | some t =>
      cases hq : predict m t with
      | error e => simp [inferBody, hp, hq]
      | ok v =>
        cases v with
        | nil => simp [inferBody, hp, hq]
        | cons x xs =>
          by_cases hidx : argmaxIdx (x :: xs) < class_labels.length
          · have hgoal : inferBody predict preprocess (ModelState.loaded m) b
                = ⟨class_labels.get ⟨argmaxIdx (x :: xs), hidx⟩,
                   round4 (maxVal (x :: xs)), "processed"⟩ := by
              simp [inferBody, hp, hq, hidx]
            rw [hgoal]
            intro _
            exact List.get_mem class_labels _ _
          · have hgoal : inferBody predict preprocess (ModelState.loaded m) b
                = ⟨"Inference Exception", 0, "failed"⟩ := by
              simp [inferBody, hp, hq, hidx]
            rw [hgoal]
            intro h
            simp at h

theorem foldl_fresh_le (l : List StoredImage) (a : Nat) :
    a ≤ l.foldl (fun b r => max b (r.id + 1)) a := by
  induction l generalizing a with
  | nil => exact Nat.le_refl a
  | cons x xs ih =>
    exact Nat.le_trans (Nat.le_max_left a (x.id + 1)) (ih (max a (x.id + 1)))

theorem id_lt_foldl_fresh (l : List StoredImage) (a : Nat) (r : StoredImage)
    (hr : r ∈ l) : r.id < l.foldl (fun b s => max b (s.id + 1)) a := by
  induction l generalizing a r with
  | nil => cases hr
  | cons x xs ih =>
    rw [List.foldl_cons]
    rcases List.mem_cons.mp hr with rfl | hr
    · exact Nat.lt_of_lt_of_le
        (Nat.lt_of_lt_of_le (Nat.lt_succ_self r.id) (Nat.le_max_right a (r.id + 1)))
        (foldl_fresh_le xs (max a (r.id + 1)))
    · exact ih (max a (x.id + 1)) r hr

theorem id_lt_freshId (images : List StoredImage) (r : StoredImage)
    (hr : r ∈ images) : r.id < freshId images :=
  id_lt_foldl_fresh images 0 r hr

theorem map_update_fresh (images : List StoredImage)
    (g : StoredImage → StoredImage) :
    images.map (fun r => if r.id = freshId images then g r else r) = images := by
  have h : ∀ r ∈ images,
      (fun r => if r.id = freshId images then g r else r) r = id r := by
    intro r hr
    exact if_neg (Nat.ne_of_lt (id_lt_freshId images r hr))
  rw [List.map_congr_left h, List.map_id]

/-- Reduction of `upload_image` on an accepted upload: all validations pass,
the file-save event comes first, the insert second, and the final collection
holds the (immediately mock-updated) record. -/
theorem upload_image_accept (token now sizeStr fn pid : String)
    (patients : List Patient) (images : List StoredImage) (pat : Patient)
    (hf : fn ≠ "")
    (hpat : get_patient_details (pyUpper pid) patients = some pat) :
    upload_image token now sizeStr ⟨some fn, some pid⟩ patients images
      = ⟨201, some "Processing",
         images ++ [⟨freshId images, pyUpper pid, pat.name,
           pyUpper pid ++ "_" ++ token ++ (splitext fn).2,
           joinPath UPLOAD_FOLDER (pyUpper pid ++ "_" ++ token ++ (splitext fn).2),
           now, sizeStr, "Processed",
           ⟨"Pending Review", "Low-Risk ROP Stage 1", 0.95⟩⟩],
         [UploadEvent.saveFile
            (joinPath UPLOAD_FOLDER (pyUpper pid ++ "_" ++ token ++ (splitext fn).2)),
          UploadEvent.insertImage (freshId images),
          UploadEvent.updateImage (freshId images)]⟩ := by
  have hfb : (fn == "") = false := beq_eq_false_iff_ne.mpr hf
  simp only [upload_image, hfb, Bool.false_eq_true, if_false, hpat,
    List.map_append, map_update_fresh, List.map_cons, List.map_nil,
    if_pos rfl]
  rfl

theorem mem_get_all_patients (db : List Patient) (p : Patient) :
    p ∈ get_all_patients db ↔ p ∈ db := List.mem_mergeSort

theorem review_records_match (images : List StoredImage)
    (l : List StoredImage) (r : StoredImage)
    (hresp : get_images_for_review images = ReviewResponse.records l)
    (hrl : r ∈ l) : reviewQuery r = true := by
  unfold get_images_for_review at hresp
  by_cases hcnt : images.countP (fun r => reviewQuery r) = 0
  · rw [if_pos hcnt] at hresp
    cases hresp
  · rw [if_neg hcnt] at hresp
    injection hresp with hl
    rw [← hl] at hrl
    exact (List.mem_filter.mp (List.mem_mergeSort.mp hrl)).2

/-! ### Claims about ai_service.py -/

/-- C2 counterexample: with the model unavailable (load attempt fails) and an
image byte stream that fails to decode, `run_inference` returns the
"Model Error" result, not the "Preprocessing Error" result — so the claimed
behaviour does have a precondition on model availability. -/
theorem c2_counterexample :
    (run_inference (M := Unit) (T := Unit) (B := Unit) none
        (fun _ _ => Except.error "boom") (fun _ => none)
        ModelState.uninit ()).1
      = ⟨"Model Error", 0, "failed"⟩
    ∧ (⟨"Model Error", 0, "failed"⟩ : InferResult)
      ≠ ⟨"Preprocessing Error", 0, "failed"⟩ :=
  ⟨rfl, by decide⟩

/-- C2 (amended): provided the model is available (the load yielded a model),
for any image byte stream that fails to decode (preprocessing returns `None`,
ai_service.py lines 52-54, 64-66), `run_inference` returns
prediction "Preprocessing Error", probability 0, status "failed"; the failure
is a result value — the embedding of `run_inference` is a total function. -/
theorem c2_preprocessing_error {M T B : Type} (loadAttempt : Option M)
    (predict : M → T → Except String (List ℚ)) (preprocess : B → Option T)
    (s : ModelState M) (b : B) (m : M)
    (hload : load_model loadAttempt s = ModelState.loaded m)
    (hpre : preprocess b = none) :
    (run_inference loadAttempt predict preprocess s b).1
      = ⟨"Preprocessing Error", 0, "failed"⟩ := by
  simp [run_inference, inferBody, hload, hpre]

theorem c2_witness :
    (run_inference (M := Unit) (T := Unit) (B := Unit) (some ())
        (fun _ _ => Except.error "boom") (fun _ => none)
        ModelState.uninit ()).1
      = ⟨"Preprocessing Error", 0, "failed"⟩ :=
  c2_preprocessing_error (some ()) (fun _ _ => Except.error "boom")
    (fun _ => none) ModelState.uninit () () rfl rfl

/-- C3: a failed first load is cached process-wide.  A failed attempt from the
pristine state leaves the `False` sentinel (`.failed`); from the sentinel
state every `run_inference` call returns the "Model Error" result and leaves
the sentinel in place for ANY current load attempt outcome `loadAttempt` —
i.e. the load is not re-attempted, even if it would now succeed.  Dually a
loaded model is kept as-is by `load_model` and `run_inference`, so a
successful load happens at most once per process. -/
theorem c3_load_failure_cached {M T B : Type} (loadAttempt : Option M)
    (predict : M → T → Except String (List ℚ)) (preprocess : B → Option T)
    (b : B) (m : M) :
    load_model (M := M) none ModelState.uninit = ModelState.failed
    ∧ run_inference loadAttempt predict preprocess ModelState.failed b
        = (⟨"Model Error", 0, "failed"⟩, ModelState.failed)
    ∧ load_model loadAttempt (ModelState.loaded m) = ModelState.loaded m
    ∧ (run_inference loadAttempt predict preprocess (ModelState.loaded m) b).2
        = ModelState.loaded m :=
  ⟨rfl, rfl, rfl, rfl⟩

/-- C4: on the fully successful path (model loaded, preprocessing succeeded,
the prediction step raised no exception — in particular the argmax index is
within the label list), `run_inference` returns the label at the argmax
index, the maximum probability rounded to 4 decimal digits, and status
"processed"; and `argmaxIdx` is the FIRST index attaining the maximum (ties
broken by lowest index). -/
theorem c4_argmax_label {M T B : Type} (loadAttempt : Option M)
    (predict : M → T → Except String (List ℚ)) (preprocess : B → Option T)
    (s : ModelState M) (b : B) (m : M) (t : T) (v : List ℚ)
    (hload : load_model loadAttempt s = ModelState.loaded m)
    (hpre : preprocess b = some t)
    (hpred : predict m t = Except.ok v)
    (hne : v ≠ [])
    (hidx : argmaxIdx v < class_labels.length) :
    (run_inference loadAttempt predict preprocess s b).1
      = ⟨class_labels.get ⟨argmaxIdx v, hidx⟩, round4 (maxVal v), "processed"⟩
    ∧ argmaxIdx v < v.length
    ∧ v[argmaxIdx v]? = some (maxVal v)
    ∧ (∀ y ∈ v, y ≤ maxVal v)
    ∧ (∀ j, j < argmaxIdx v → v[j]? ≠ some (maxVal v)) := by
  obtain ⟨x, xs, rfl⟩ := List.exists_cons_of_ne_nil hne
  refine ⟨?_, argmaxIdx_lt_length _ hne, getElem?_argmaxIdx _ hne,
    le_maxVal _, fun j hj => getElem?_ne_of_lt_indexOf _ _ j hj⟩
  simp [run_inference, inferBody, hload, hpre, hpred, hidx]

theorem c4_witness :
    (run_inference (M := Unit) (T := Unit) (B := Unit) (some ())
        (fun _ _ => Except.ok [0, 3, 1, 3]) (fun _ => some ())
        ModelState.uninit ()).1.prediction = "Stage 1"
    ∧ (run_inference (M := Unit) (T := Unit) (B := Unit) (some ())
        (fun _ _ => Except.ok [0, 3, 1, 3]) (fun _ => some ())
        ModelState.uninit ()).1.probability = 3
    ∧ (run_inference (M := Unit) (T := Unit) (B := Unit) (some ())
        (fun _ _ => Except.ok [0, 3, 1, 3]) (fun _ => some ())
        ModelState.uninit ()).1.status = "processed" := by
  have h := c4_argmax_label (some ())
    (fun _ _ => Except.ok [0, 3, 1, 3]) (fun _ => some ())
    ModelState.uninit () () () [0, 3, 1, 3]
    rfl rfl rfl (by decide) (by decide)
  rw [h.1]
  refine ⟨by decide, ?_, rfl⟩
  show round4 (maxVal [0, 3, 1, 3]) = 3
  have hm : maxVal [0, 3, 1, 3] = 3 := by decide
  rw [hm]
  norm_num [round4, round_half_even]

/-- C5 counterexample: the code does not clamp model outputs, so a "processed"
classification can carry a probability above 1 — for the output vector `[2]`
the returned probability is 2. -/
theorem c5_counterexample :
    (run_inference (M := Unit) (T := Unit) (B := Unit) (some ())
        (fun _ _ => Except.ok [2]) (fun _ => some ())
        ModelState.uninit ()).1.status = "processed"
    ∧ ¬ (run_inference (M := Unit) (T := Unit) (B := Unit) (some ())
        (fun _ _ => Except.ok [2]) (fun _ => some ())
        ModelState.uninit ()).1.probability ≤ 1 := by
  refine ⟨rfl, ?_⟩
  show ¬ round4 (maxVal [2]) ≤ 1
  have hm : maxVal [2] = 2 := by decide
  rw [hm]
  norm_num [round4, round_half_even]

/-- C5 (amended): every result with status "processed" carries a prediction
drawn from the fixed four-label list; and the returned probability lies in
[0, 1] PROVIDED every entry of the model output vector lies in [0, 1] (the
code itself never enforces this range). -/
theorem c5_processed_bounds {M T B : Type} (loadAttempt : Option M)
    (predict : M → T → Except String (List ℚ)) (preprocess : B → Option T)
    (s : ModelState M) (b : B) :
    ((run_inference loadAttempt predict preprocess s b).1.status = "processed" →
      (run_inference loadAttempt predict preprocess s b).1.prediction
        ∈ class_labels)
    ∧ (∀ (m : M) (t : T) (v : List ℚ),
        load_model loadAttempt s = ModelState.loaded m →
        preprocess b = some t → predict m t = Except.ok v →
        (∀ y ∈ v, 0 ≤ y ∧ y ≤ 1) →
        0 ≤ (run_inference loadAttempt predict preprocess s b).1.probability
        ∧ (run_inference loadAttempt predict preprocess s b).1.probability ≤ 1) := by
  constructor
  · exact inferBody_processed_prediction_mem predict preprocess
      (load_model loadAttempt s) b
  · intro m t v hload hpre hpred hbnd
    show 0 ≤ (inferBody predict preprocess (load_model loadAttempt s) b).probability
      ∧ (inferBody predict preprocess (load_model loadAttempt s) b).probability ≤ 1
    rw [hload]
    cases v with
    | nil =>
      have hgoal : inferBody predict preprocess (ModelState.loaded m) b
          = ⟨"Inference Exception", 0, "failed"⟩ := by
        simp [inferBody, hpre, hpred]
      rw [hgoal]
      norm_num
    | cons x xs =>
      have hb := hbnd _ (maxVal_mem (x :: xs) (by simp))
      by_cases hidx : argmaxIdx (x :: xs) < class_labels.length
      · have hgoal : inferBody predict preprocess (ModelState.loaded m) b
            = ⟨class_labels.get ⟨argmaxIdx (x :: xs), hidx⟩,
               round4 (maxVal (x :: xs)), "processed"⟩ := by
          simp [inferBody, hpre, hpred, hidx]
        rw [hgoal]
        exact round4_bounds _ hb.1 hb.2
      · have hgoal : inferBody predict preprocess (ModelState.loaded m) b
            = ⟨"Inference Exception", 0, "failed"⟩ := by
          simp [inferBody, hpre, hpred, hidx]
        rw [hgoal]
        norm_num

theorem c5_witness :
    (run_inference (M := Unit) (T := Unit) (B := Unit) (some ())
        (fun _ _ => Except.ok [0, 1]) (fun _ => some ())
        ModelState.uninit ()).1.prediction ∈ class_labels
    ∧ 0 ≤ (run_inference (M := Unit) (T := Unit) (B := Unit) (some ())
        (fun _ _ => Except.ok [0, 1]) (fun _ => some ())
        ModelState.uninit ()).1.probability
    ∧ (run_inference (M := Unit) (T := Unit) (B := Unit) (some ())
        (fun _ _ => Except.ok [0, 1]) (fun _ => some ())
        ModelState.uninit ()).1.probability ≤ 1 := by
  have h := c5_processed_bounds (M := Unit) (T := Unit) (B := Unit) (some ())
    (fun _ _ => Except.ok [0, 1]) (fun _ => some ()) ModelState.uninit ()
  have h2 := h.2 () () [0, 1] rfl rfl rfl (by decide)
  exact ⟨h.1 rfl, h2.1, h2.2⟩

/-- C10: when the argmax index of the model output vector falls outside the
4-entry label list, the `IndexError` from `class_labels[...]` is caught by
the surrounding `except Exception` and `run_inference` returns prediction
"Inference Exception", probability 0, status "failed" — it does not raise. -/
theorem c10_out_of_range_caught {M T B : Type} (loadAttempt : Option M)
    (predict : M → T → Except String (List ℚ)) (preprocess : B → Option T)
    (s : ModelState M) (b : B) (m : M) (t : T) (v : List ℚ)
    (hload : load_model loadAttempt s = ModelState.loaded m)
    (hpre : preprocess b = some t)
    (hpred : predict m t = Except.ok v)
    (hne : v ≠ [])
    (hidx : class_labels.length ≤ argmaxIdx v) :
    (run_inference loadAttempt predict preprocess s b).1
      = ⟨"Inference Exception", 0, "failed"⟩ := by
  obtain ⟨x, xs, rfl⟩ := List.exists_cons_of_ne_nil hne
  simp [run_inference, inferBody, hload, hpre, hpred, Nat.not_lt.mpr hidx]

theorem c10_witness :
    (run_inference (M := Unit) (T := Unit) (B := Unit) (some ())
        (fun _ _ => Except.ok [0, 0, 0, 0, 5]) (fun _ => some ())
        ModelState.uninit ()).1
      = ⟨"Inference Exception", 0, "failed"⟩ :=
  c10_out_of_range_caught (some ()) (fun _ _ => Except.ok [0, 0, 0, 0, 5])
    (fun _ => some ()) ModelState.uninit () () () [0, 0, 0, 0, 5]
    rfl rfl rfl (by decide) (by decide)

/-! ### Claims about app.py -/

/-- C1 counterexample: an accepted upload (existing patient "N001", file
"scan.png") stores a record whose `ai_result.status` is "Pending Review"
while its prediction ("Low-Risk ROP Stage 1") is NOT a high-risk label — so
"status = Pending Review iff the label is high-risk" fails on the code. -/
theorem c1_counterexample :
    ¬ (∀ r ∈ (upload_image "abcdef" "T0" "0.10 MB"
          ⟨some "scan.png", some "n001"⟩
          [⟨"N001", "Baby Doe", "2024-01-01", none, none, "John Doe", none,
            none, "Active", "T"⟩] []).images,
        (r.ai_result.status = "Pending Review"
          ↔ r.ai_result.prediction ∈ highRiskReviewLabels)) := by
  decide

/-- C1 (amended): for every accepted upload the mock update sets the stored
record's `ai_result.status` to "Pending Review" UNCONDITIONALLY, with the
fixed prediction "Low-Risk ROP Stage 1", which is not a high-risk label; the
review queue additionally filters on the high-risk label set, so a record
whose prediction is not high-risk — in particular every record created by
this upload path — is never queued for doctor review, despite its
"Pending Review" status. -/
theorem c1_pending_review_unconditional (token now sizeStr fn pid : String)
    (patients : List Patient) (images : List StoredImage) (pat : Patient)
    (hf : fn ≠ "")
    (hpat : get_patient_details (pyUpper pid) patients = some pat) :
    (upload_image token now sizeStr ⟨some fn, some pid⟩ patients images).images
      = images ++ [⟨freshId images, pyUpper pid, pat.name,
          pyUpper pid ++ "_" ++ token ++ (splitext fn).2,
          joinPath UPLOAD_FOLDER (pyUpper pid ++ "_" ++ token ++ (splitext fn).2),
          now, sizeStr, "Processed",
          ⟨"Pending Review", "Low-Risk ROP Stage 1", 0.95⟩⟩]
    ∧ "Low-Risk ROP Stage 1" ∉ highRiskReviewLabels
    ∧ (∀ r : StoredImage, r.ai_result.prediction ∉ highRiskReviewLabels →
        reviewQuery r = false
        ∧ ∀ (imgs l : List StoredImage),
            get_images_for_review imgs = ReviewResponse.records l → r ∉ l) := by
  refine ⟨?_, by decide, ?_⟩
  · rw [upload_image_accept token now sizeStr fn pid patients images pat hf hpat]
  · intro r hnr
    have hcont : highRiskReviewLabels.contains r.ai_result.prediction = false := by
      cases hcon : highRiskReviewLabels.contains r.ai_result.prediction with
      | false => rfl
      | true => exact absurd (by simpa [List.contains] using hcon) hnr
    have hq : reviewQuery r = false := by
      unfold reviewQuery
      rw [hcont]
      simp
    refine ⟨hq, ?_⟩
    intro imgs l hresp hrl
    have := review_records_match imgs l r hresp hrl
    rw [hq] at this
    cases this

theorem c1_witness :
    reviewQuery ⟨0, "N001", "Baby Doe", "f.png", "uploads/f.png", "T0",
      "0.10 MB", "Processed",
      ⟨"Pending Review", "Low-Risk ROP Stage 1", 0.95⟩⟩ = false := by
  have h := c1_pending_review_unconditional "abcdef" "T0" "0.10 MB"
    "scan.png" "n001"
    [⟨"N001", "Baby Doe", "2024-01-01", none, none, "John Doe", none, none,
      "Active", "T"⟩] []
    ⟨"N001", "Baby Doe", "2024-01-01", none, none, "John Doe", none, none,
      "Active", "T"⟩
    (by decide) (by decide)
  exact (h.2.2 _ (by decide)).1

/-- C6: a valid patient creation request with a fresh id succeeds with 201,
the new patient (id stored uppercased) is retrievable through the patient
listing, and every later valid creation request whose id matches the stored
id case-insensitively (its uppercasing equals the stored uppercased id) is
rejected with 409 and writes nothing — ids stay unique up to case. -/
theorem c6_patient_id_unique
    (parseDate : String → Option String) (parseFloat : String → Option ℚ)
    (now : String) (req : PatientReq) (db : List Patient)
    (nm nid bd pn iso : String) (wopt : Option ℚ)
    (hnm : req.name = some nm) (hnm0 : nm ≠ "")
    (hnid : req.neonate_id = some nid) (hnid0 : nid ≠ "")
    (hbd : req.birth_date = some bd) (hbd0 : bd ≠ "")
    (hpn : req.parent_name = some pn) (hpn0 : pn ≠ "")
    (hiso : parseDate bd = some iso)
    (hw : weightField parseFloat req.weight = some wopt)
    (hfresh : ∀ p ∈ db, p.neonate_id ≠ pyUpper nid) :
    add_patient parseDate parseFloat now req db
      = (201, db ++ [⟨pyUpper nid, nm, iso, req.gestational_age, wopt, pn,
                      req.parent_phone, req.parent_email, "Active", now⟩])
    ∧ (⟨pyUpper nid, nm, iso, req.gestational_age, wopt, pn,
        req.parent_phone, req.parent_email, "Active", now⟩ : Patient)
        ∈ get_all_patients
            (db ++ [⟨pyUpper nid, nm, iso, req.gestational_age, wopt, pn,
                     req.parent_phone, req.parent_email, "Active", now⟩])
    ∧ (∀ (pd2 : String → Option String) (pf2 : String → Option ℚ)
         (now2 : String) (req2 : PatientReq) (nm2 nid2 bd2 pn2 : String),
         req2.name = some nm2 → nm2 ≠ "" →
         req2.neonate_id = some nid2 → nid2 ≠ "" →
         req2.birth_date = some bd2 → bd2 ≠ "" →
         req2.parent_name = some pn2 → pn2 ≠ "" →
         pyUpper nid2 = pyUpper nid →
         add_patient pd2 pf2 now2 req2
             (db ++ [⟨pyUpper nid, nm, iso, req.gestational_age, wopt, pn,
                      req.parent_phone, req.parent_email, "Active", now⟩])
           = (409, db ++ [⟨pyUpper nid, nm, iso, req.gestational_age, wopt, pn,
                           req.parent_phone, req.parent_email, "Active", now⟩])) := by
  have h1 : (nm == "") = false := beq_eq_false_iff_ne.mpr hnm0
  have h2 : (nid == "") = false := beq_eq_false_iff_ne.mpr hnid0
  have h3 : (bd == "") = false := beq_eq_false_iff_ne.mpr hbd0
  have h4 : (pn == "") = false := beq_eq_false_iff_ne.mpr hpn0
  have hany : db.any (fun p => p.neonate_id == pyUpper nid) = false :=
    List.any_eq_false.mpr (fun p hp => by simp [hfresh p hp])
  refine ⟨?_, ?_, ?_⟩
  · simp [add_patient, hnm, hnid, hbd, hpn, h1, h2, h3, h4, hany, hiso, hw]
  · exact (mem_get_all_patients _ _).mpr (by simp)
  · intro pd2 pf2 now2 req2 nm2 nid2 bd2 pn2 e1 e2 e3 e4 e5 e6 e7 e8 heq
    have g1 : (nm2 == "") = false := beq_eq_false_iff_ne.mpr e2
    have g2 : (nid2 == "") = false := beq_eq_false_iff_ne.mpr e4
    have g3 : (bd2 == "") = false := beq_eq_false_iff_ne.mpr e6
    have g4 : (pn2 == "") = false := beq_eq_false_iff_ne.mpr e8
    have hany2 : (db ++ [(⟨pyUpper nid, nm, iso, req.gestational_age, wopt, pn,
        req.parent_phone, req.parent_email, "Active", now⟩ : Patient)]).any
          (fun p => p.neonate_id == pyUpper nid2) = true := by
      refine List.any_eq_true.mpr
        ⟨(⟨pyUpper nid, nm, iso, req.gestational_age, wopt, pn,
          req.parent_phone, req.parent_email, "Active", now⟩ : Patient),
         by simp, ?_⟩
      simp [heq]
    simp [add_patient, e1, e3, e5, e7, g1, g2, g3, g4, hany2]

theorem c6_witness :
    add_patient some (fun _ => some 1) "T1"
        ⟨some "Baby Doe", some "n001", some "2024-01-01", some "John Doe",
         none, none, none, none⟩ []
      = (201, [⟨pyUpper "n001", "Baby Doe", "2024-01-01", none, none,
                "John Doe", none, none, "Active", "T1"⟩])
    ∧ add_patient some (fun _ => some 1) "T2"
        ⟨some "Baby Two", some "N001", some "2024-02-02", some "Jane Doe",
         none, none, none, none⟩
        [⟨pyUpper "n001", "Baby Doe", "2024-01-01", none, none,
          "John Doe", none, none, "Active", "T1"⟩]
      = (409, [⟨pyUpper "n001", "Baby Doe", "2024-01-01", none, none,
                "John Doe", none, none, "Active", "T1"⟩]) := by
  have h := c6_patient_id_unique some (fun _ => some 1) "T1"
    ⟨some "Baby Doe", some "n001", some "2024-01-01", some "John Doe",
     none, none, none, none⟩ []
    "Baby Doe" "n001" "2024-01-01" "John Doe" "2024-01-01" none
    rfl (by decide) rfl (by decide) rfl (by decide) rfl (by decide)
    rfl rfl (by simp)
  exact ⟨h.1,
    h.2.2 some (fun _ => some 1) "T2"
      ⟨some "Baby Two", some "N001", some "2024-02-02", some "Jane Doe",
       none, none, none, none⟩
      "Baby Two" "N001" "2024-02-02" "Jane Doe"
      rfl (by decide) rfl (by decide) rfl (by decide) rfl (by decide)
      (by decide)⟩

/-- C7: an appointment request whose (case-normalized) patient id matches no
stored patient is answered with 404 and the appointments collection is
returned unchanged — no record is written. -/
theorem c7_unknown_patient_rejected (parseDT : String → Option String)
    (now : String) (req : ApptReq) (patients : List Patient)
    (appts : List Appointment) (pid dt ty : String)
    (h1 : req.patientId = some pid) (h10 : pid ≠ "")
    (h2 : req.datetime = some dt) (h20 : dt ≠ "")
    (h3 : req.type = some ty) (h30 : ty ≠ "")
    (hno : ∀ p ∈ patients, p.neonate_id ≠ pyUpper pid) :
    schedule_appointment parseDT now req patients appts = (404, appts) := by
  have hb1 : (pid == "") = false := beq_eq_false_iff_ne.mpr h10
  have hb2 : (dt == "") = false := beq_eq_false_iff_ne.mpr h20
  have hb3 : (ty == "") = false := beq_eq_false_iff_ne.mpr h30
  have hfind : get_patient_details pid patients = none :=
    List.find?_eq_none.mpr (fun p hp => by simp [hno p hp])
  simp [schedule_appointment, h1, h2, h3, hb1, hb2, hb3, hfind]

theorem c7_witness :
    schedule_appointment some "T0"
        ⟨some "n999", some "2025-01-01T10:00", some "Initial Screening"⟩
        [⟨"N001", "Baby Doe", "2024-01-01", none, none, "John Doe", none,
          none, "Active", "T"⟩] []
      = (404, []) :=
  c7_unknown_patient_rejected some "T0"
    ⟨some "n999", some "2025-01-01T10:00", some "Initial Screening"⟩
    [⟨"N001", "Baby Doe", "2024-01-01", none, none, "John Doe", none, none,
      "Active", "T"⟩] []
    "n999" "2025-01-01T10:00" "Initial Screening"
    rfl (by decide) rfl (by decide) rfl (by decide) (by decide)

/-- C8: on every accepted upload the raw file is saved (first event) under
the generated name: uppercased patient id, underscore, the random token,
then the original file extension; the ImageRecord is inserted only
afterwards (second event) and its `filename`/`filepath` fields reference
exactly the saved file. -/
theorem c8_file_saved_before_insert (token now sizeStr fn pid : String)
    (patients : List Patient) (images : List StoredImage) (pat : Patient)
    (hf : fn ≠ "")
    (hpat : get_patient_details (pyUpper pid) patients = some pat) :
    (upload_image token now sizeStr ⟨some fn, some pid⟩ patients images).events
      = [UploadEvent.saveFile
           (joinPath UPLOAD_FOLDER (pyUpper pid ++ "_" ++ token ++ (splitext fn).2)),
         UploadEvent.insertImage (freshId images),
         UploadEvent.updateImage (freshId images)]
    ∧ (upload_image token now sizeStr ⟨some fn, some pid⟩ patients images).images
      = images ++ [⟨freshId images, pyUpper pid, pat.name,
          pyUpper pid ++ "_" ++ token ++ (splitext fn).2,
          joinPath UPLOAD_FOLDER (pyUpper pid ++ "_" ++ token ++ (splitext fn).2),
          now, sizeStr, "Processed",
          ⟨"Pending Review", "Low-Risk ROP Stage 1", 0.95⟩⟩] := by
  rw [upload_image_accept token now sizeStr fn pid patients images pat hf hpat]
  exact ⟨rfl, rfl⟩

theorem c8_witness :
    (upload_image "abcdef" "T0" "0.10 MB" ⟨some "scan.png", some "n001"⟩
        [⟨"N001", "Baby Doe", "2024-01-01", none, none, "John Doe", none,
          none, "Active", "T"⟩] []).events
      = [UploadEvent.saveFile "uploads/N001_abcdef.png",
         UploadEvent.insertImage 0, UploadEvent.updateImage 0] := by
  have h := c8_file_saved_before_insert "abcdef" "T0" "0.10 MB" "scan.png"
    "n001"
    [⟨"N001", "Baby Doe", "2024-01-01", none, none, "John Doe", none, none,
      "Active", "T"⟩] []
    ⟨"N001", "Baby Doe", "2024-01-01", none, none, "John Doe", none, none,
      "Active", "T"⟩
    (by decide) (by decide)
  rw [h.1]
  decide

/-- C9: the 201 response of an accepted upload always carries the literal
`aiResult.status = "Processing"`, although by response time the stored
record has already been mock-updated to overall status "Processed" with
`ai_result.status = "Pending Review"` — the response never equals the stored
record's final classification status (nor its overall status). -/
theorem c9_response_always_processing (token now sizeStr fn pid : String)
    (patients : List Patient) (images : List StoredImage) (pat : Patient)
    (hf : fn ≠ "")
    (hpat : get_patient_details (pyUpper pid) patients = some pat) :
    (upload_image token now sizeStr ⟨some fn, some pid⟩ patients images).httpStatus
      = 201
    ∧ (upload_image token now sizeStr ⟨some fn, some pid⟩ patients images).respAiStatus
      = some "Processing"
    ∧ (∀ r : StoredImage,
        (upload_image token now sizeStr ⟨some fn, some pid⟩ patients images).images
          = images ++ [r] →
        r.status = "Processed" ∧ r.ai_result.status = "Pending Review"
        ∧ some r.ai_result.status
            ≠ (upload_image token now sizeStr ⟨some fn, some pid⟩
                patients images).respAiStatus
        ∧ some r.status
            ≠ (upload_image token now sizeStr ⟨some fn, some pid⟩
                patients images).respAiStatus) := by
  rw [upload_image_accept token now sizeStr fn pid patients images pat hf hpat]
  refine ⟨rfl, rfl, ?_⟩
  intro r hr
  have hrr := List.append_cancel_left hr
  have hr1 : r = ⟨freshId images, pyUpper pid, pat.name,
      pyUpper pid ++ "_" ++ token ++ (splitext fn).2,
      joinPath UPLOAD_FOLDER (pyUpper pid ++ "_" ++ token ++ (splitext fn).2),
      now, sizeStr, "Processed",
      ⟨"Pending Review", "Low-Risk ROP Stage 1", 0.95⟩⟩ := by
    simpa using hrr.symm
  subst hr1
  refine ⟨rfl, rfl, ?_, ?_⟩
  · show (some "Pending Review" : Option String) ≠ some "Processing"
    decide
  · show (some "Processed" : Option String) ≠ some "Processing"
    decide

theorem c9_witness :
    (upload_image "abcdef" "T0" "0.10 MB" ⟨some "scan.png", some "n001"⟩
        [⟨"N001", "Baby Doe", "2024-01-01", none, none, "John Doe", none,
          none, "Active", "T"⟩] []).httpStatus = 201
    ∧ (upload_image "abcdef" "T0" "0.10 MB" ⟨some "scan.png", some "n001"⟩
        [⟨"N001", "Baby Doe", "2024-01-01", none, none, "John Doe", none,
          none, "Active", "T"⟩] []).respAiStatus = some "Processing" := by
  have h := c9_response_always_processing "abcdef" "T0" "0.10 MB" "scan.png"
    "n001"
    [⟨"N001", "Baby Doe", "2024-01-01", none, none, "John Doe", none, none,
      "Active", "T"⟩] []
    ⟨"N001", "Baby Doe", "2024-01-01", none, none, "John Doe", none, none,
      "Active", "T"⟩
    (by decide) (by decide)
  exact ⟨h.1, h.2.1⟩

end VisionCare
